import Mathlib

/-!
Shallow embedding of the core of the yt-dlp Rust wrapper
(format data model and classification, best/worst stream selection,
subprocess result handling, static-build asset resolution, zip-entry
path safety, and the JSON "none" codec normalisation), together with
theorems checking the specification claims against it.
-/

/-- Model of an `f64` value as ordered by the `ordered_float` crate's
`OrderedFloat` total order: `-inf` below all finite values, `+inf` above
them, and NaN greatest of all (NaN is equal to itself).  Finite values are
represented by rationals (every finite `f64` is a rational; `-0.0` and
`0.0` compare equal under `OrderedFloat`, as do equal rationals). -/
inductive F64 where
  | negInf : F64
  | val : ℚ → F64
  | posInf : F64
  | nan : F64
deriving DecidableEq

/-- The total-order comparison on `F64`, modelling `OrderedFloat::cmp`. -/
def F64.cmp : F64 → F64 → Ordering
  | .val q, .val r => compare q r
  | .negInf, .negInf => .eq
  | .negInf, _ => .lt
  | _, .negInf => .gt
  | .nan, .nan => .eq
  | .nan, _ => .gt
  | _, .nan => .lt
  | .posInf, .posInf => .eq
  | .posInf, .val _ => .gt
  | .val _, .posInf => .lt

/-- The `f64` literal `0.0`, the default used for missing values. -/
def F64.zero : F64 := .val 0

/-- Model of `ordered_float`: the comparison is lawful, bundled as the
three facts the lexicographic composition lemmas need. -/
structure LawfulCmp {α : Type} (c : α → α → Ordering) : Prop where
  swap_eq : ∀ a b, c a b = (c b a).swap
  eq_iff : ∀ a b, c a b = .eq ↔ a = b
  lt_trans : ∀ a b d, c a b = .lt → c b d = .lt → c a d = .lt

theorem lawfulCmp_compare {α : Type} [LinearOrder α] :
    LawfulCmp (fun a b : α => compare a b) := by
  constructor
  · intro a b
    rcases lt_trichotomy a b with h | h | h
    · rw [compare_lt_iff_lt.mpr h, compare_gt_iff_gt.mpr h]; rfl
    · rw [h, compare_eq_iff_eq.mpr rfl]; rfl
    · rw [compare_gt_iff_gt.mpr h, compare_lt_iff_lt.mpr h]; rfl
  · intro a b
    exact compare_eq_iff_eq
  · intro a b d hab hbd
    exact compare_lt_iff_lt.mpr
      (lt_trans (compare_lt_iff_lt.mp hab) (compare_lt_iff_lt.mp hbd))

theorem F64.lawful_cmp : LawfulCmp F64.cmp := by
  have hq : LawfulCmp (fun a b : ℚ => compare a b) := lawfulCmp_compare
  constructor
  · intro a b
    cases a <;> cases b <;> simp [F64.cmp, Ordering.swap]
    exact hq.swap_eq _ _
  · intro a b
    cases a <;> cases b <;> simp [F64.cmp, Ordering.swap]
    exact hq.eq_iff _ _
  · intro a b d hab hbd
    cases a <;> cases b <;> cases d <;>
      simp_all [F64.cmp, Ordering.swap]
    exact hq.lt_trans _ _ _ hab hbd

/-- Lexicographic composition of two comparisons, first on the first
component, breaking ties on the second; this is what the Rust pattern
"compare, early-return unless Equal" computes. -/
def cmpLex {α β : Type} (c₁ : α → α → Ordering) (c₂ : β → β → Ordering)
    (p q : α × β) : Ordering :=
  (c₁ p.1 q.1).then (c₂ p.2 q.2)

theorem Ordering.then_swap (o₁ o₂ : Ordering) :
    (o₁.then o₂).swap = o₁.swap.then o₂.swap := by
  cases o₁ <;> cases o₂ <;> rfl

theorem lawfulCmp_cmpLex {α β : Type} {c₁ : α → α → Ordering}
    {c₂ : β → β → Ordering} (h₁ : LawfulCmp c₁) (h₂ : LawfulCmp c₂) :
    LawfulCmp (cmpLex c₁ c₂) := by
  constructor
  · intro a b
    rw [cmpLex, cmpLex, h₁.swap_eq, h₂.swap_eq, Ordering.then_swap]
  · intro a b
    rw [cmpLex]
    constructor
    · intro h
      rcases ho : c₁ a.1 b.1 with h1 | h1 | h1 <;> rw [ho] at h <;>
        simp [Ordering.then] at h
      have e1 := (h₁.eq_iff _ _).mp ho
      have e2 := (h₂.eq_iff _ _).mp h
      exact Prod.ext e1 e2
    · intro h
      rw [h, (h₁.eq_iff _ _).mpr rfl, (h₂.eq_iff _ _).mpr rfl]
      rfl
  · intro a b d hab hbd
    rw [cmpLex] at hab hbd ⊢
    rcases h1 : c₁ a.1 b.1 with e | e | e <;> rw [h1] at hab <;>
        rcases h2 : c₁ b.1 d.1 with f | f | f <;> rw [h2] at hbd
    · rw [h₁.lt_trans _ _ _ h1 h2]; rfl
    · rw [← (h₁.eq_iff _ _).mp h2, h1]; rfl
    · exact absurd hbd (by simp [Ordering.then])
    · rw [(h₁.eq_iff _ _).mp h1, h2]; rfl
    · have e1 := (h₁.eq_iff _ _).mp h1
      have e2 := (h₁.eq_iff _ _).mp h2
      rw [e1, e2, (h₁.eq_iff _ _).mpr rfl]
      simp [Ordering.then] at hab hbd ⊢
      exact h₂.lt_trans _ _ _ hab hbd
    · exact absurd hbd (by simp [Ordering.then])
    · exact absurd hab (by simp [Ordering.then])
    · exact absurd hab (by simp [Ordering.then])
    · exact absurd hab (by simp [Ordering.then])

/-! ## The format data model (src/model/format.rs) -/

/-- The available extensions of a format. -/
inductive Extension where
  | M4A | Mp4 | Webm | Mhtml | none | Unknown
deriving DecidableEq

/-- The available container extensions of a format. -/
inductive Container where
  | Webm | M4A | Mp4 | Unknown
deriving DecidableEq

/-- The available protocols of a format. -/
inductive Protocol where
  | Https | M3U8Native | Mhtml | Unknown
deriving DecidableEq

/-- The available dynamic ranges of a format. -/
inductive DynamicRange where
  | SDR | HDR | Unknown
deriving DecidableEq

/-- The derived type of a format. -/
inductive FormatType where
  | Audio | Video | AudioAndVideo | Manifest | Storyboard | Unknown
deriving DecidableEq

/-- A fragment of a storyboard. -/
structure Fragment where
  url : String
  duration : F64
deriving DecidableEq

/-- The codec information of a format. -/
structure CodecInfo where
  audio_codec : Option String
  video_codec : Option String
  audio_ext : Extension
  video_ext : Extension
  audio_channels : Option ℤ
  asr : Option ℤ
deriving DecidableEq

/-- The video resolution information of a format. -/
structure VideoResolution where
  width : Option ℤ
  height : Option ℤ
  fps : Option F64
  resolution : String
  aspect_ratio : Option F64
deriving DecidableEq

/-- The options used by the downloader. -/
structure DownloaderOptions where
  http_chunk_size : ℤ
deriving DecidableEq

/-- The HTTP headers used by the downloader. -/
structure HttpHeaders where
  user_agent : String
  accept : String
  accept_language : String
  sec_fetch_mode : String
deriving DecidableEq

/-- The download information of a format. -/
structure DownloadInfo where
  url : String
  ext : Extension
  http_headers : HttpHeaders
  manifest_url : Option String
  downloader_options : Option DownloaderOptions
deriving DecidableEq

/-- The quality information of a format. -/
structure QualityInfo where
  quality : Option F64
  dynamic_range : Option DynamicRange
deriving DecidableEq

/-- The file information of a format. -/
structure FileInfo where
  filesize_approx : Option ℤ
  filesize : Option ℤ
deriving DecidableEq

/-- The rates information of a format. -/
structure RatesInfo where
  video_rate : Option F64
  audio_rate : Option F64
  total_rate : Option F64
deriving DecidableEq

/-- The storyboard information of a format. -/
structure StoryboardInfo where
  rows : Option ℤ
  columns : Option ℤ
  fragments : Option (List Fragment)
deriving DecidableEq

/-- An available format of a video (src/model/format.rs, struct Format). -/
structure Format where
  format : String
  format_id : String
  format_note : Option String
  protocol : Protocol
  language : Option String
  has_drm : Option Bool
  container : Option Container
  codec_info : CodecInfo
  video_resolution : VideoResolution
  download_info : DownloadInfo
  quality_info : QualityInfo
  file_info : FileInfo
  storyboard_info : StoryboardInfo
  rates_info : RatesInfo
deriving DecidableEq

/-- `Format::format_type` (src/model/format.rs lines 72-90). -/
def Format.format_type (f : Format) : FormatType :=
  if f.download_info.manifest_url.isSome then .Manifest
  else if f.storyboard_info.fragments.isSome then .Storyboard
  else
    let audio := f.codec_info.audio_codec.isSome
    let video := f.codec_info.video_codec.isSome
    match audio, video with
    | true, true => .AudioAndVideo
    | true, false => .Audio
    | false, true => .Video
    | _, _ => .Unknown

/-- `FormatType::is_audio_and_video`. -/
def FormatType.is_audio_and_video (t : FormatType) : Bool :=
  match t with
  | .AudioAndVideo => true
  | _ => false

/-- `FormatType::is_video`. -/
def FormatType.is_video (t : FormatType) : Bool :=
  match t with
  | .Video => true
  | _ => false

/-- `FormatType::is_audio`. -/
def FormatType.is_audio (t : FormatType) : Bool :=
  match t with
  | .Audio => true
  | _ => false

/-- `FormatType::is_storyboard`. -/
def FormatType.is_storyboard (t : FormatType) : Bool :=
  match t with
  | .Storyboard => true
  | _ => false

/-- `FormatType::is_manifest`. -/
def FormatType.is_manifest (t : FormatType) : Bool :=
  match t with
  | .Manifest => true
  | _ => false

/-- `Format::is_video`. -/
def Format.is_video (f : Format) : Bool :=
  f.format_type.is_video

/-- `Format::is_audio`. -/
def Format.is_audio (f : Format) : Bool :=
  f.format_type.is_audio

/-- The classification rule exactly as the specification words it
(ordered, first match wins): a present manifest URL means Manifest, else a
present storyboard fragment list means Storyboard, else both codec ids
present means AudioAndVideo, only audio means AudioOnly, only video means
VideoOnly, neither means Unknown.  Written from the spec for comparison
with `Format.format_type`, which is written from the source. -/
def classify_spec (f : Format) : FormatType :=
  if f.download_info.manifest_url.isSome then .Manifest
  else if f.storyboard_info.fragments.isSome then .Storyboard
  else if f.codec_info.audio_codec.isSome ∧ f.codec_info.video_codec.isSome then .AudioAndVideo
  else if f.codec_info.audio_codec.isSome then .Audio
  else if f.codec_info.video_codec.isSome then .Video
  else .Unknown

/-! ## The video model and format selection (src/model/mod.rs) -/

/-- The available extensions for automatic caption files. -/
inductive CaptionExtension where
  | Json3 | Srv1 | Srv2 | Srv3 | Ttml | Vtt
deriving DecidableEq

/-- An automatic caption of a YouTube video. -/
structure AutomaticCaption where
  extension : CaptionExtension
  url : String
  name : Option String
deriving DecidableEq

/-- A thumbnail of a YouTube video. -/
structure Thumbnail where
  url : String
  preference : ℤ
  id : String
  height : Option ℤ
  width : Option ℤ
  resolution : Option String
deriving DecidableEq

/-- The extractor information. -/
structure ExtractorInfo where
  extractor : String
  extractor_key : String
deriving DecidableEq

/-- The version of yt-dlp used to fetch the video. -/
structure Version where
  version : String
  current_git_head : Option String
  release_git_head : String
  repository : String
deriving DecidableEq

/-- A YouTube video, the output of yt-dlp (src/model/mod.rs, struct Video).
The automatic-captions hash map is modelled as an association list. -/
structure Video where
  id : String
  title : String
  thumbnail : String
  description : String
  availability : String
  upload_date : ℤ
  view_count : ℤ
  like_count : Option ℤ
  comment_count : ℤ
  channel : String
  channel_id : String
  channel_url : String
  channel_follower_count : ℤ
  formats : List Format
  thumbnails : List Thumbnail
  automatic_captions : List (String × List AutomaticCaption)
  tags : List String
  categories : List String
  age_limit : ℤ
  has_drm : Option Bool
  live_status : String
  playable_in_embed : Bool
  extractor_info : ExtractorInfo
  version : Version
deriving DecidableEq

/-- `Video::compare_video_formats` (src/model/mod.rs lines 140-169):
quality, then height, then fps, then video bitrate, each compared via
`OrderedFloat` (integers directly), early-returning on the first tier that
is not `Equal`. -/
def Video.compare_video_formats (_v : Video) (a b : Format) : Ordering :=
  let a_quality := a.quality_info.quality.getD F64.zero
  let b_quality := b.quality_info.quality.getD F64.zero
  let cmp_quality := F64.cmp a_quality b_quality
  if cmp_quality ≠ .eq then cmp_quality
  else
    let a_height := a.video_resolution.height.getD 0
    let b_height := b.video_resolution.height.getD 0
    let cmp_height := compare a_height b_height
    if cmp_height ≠ .eq then cmp_height
    else
      let a_fps := a.video_resolution.fps.getD F64.zero
      let b_fps := b.video_resolution.fps.getD F64.zero
      let cmp_fps := F64.cmp a_fps b_fps
      if cmp_fps ≠ .eq then cmp_fps
      else
        let a_vbr := a.rates_info.video_rate.getD F64.zero
        let b_vbr := b.rates_info.video_rate.getD F64.zero
        F64.cmp a_vbr b_vbr

/-- `Video::compare_audio_formats` (src/model/mod.rs lines 173-202):
quality, then audio bitrate, then sample rate, then channel count. -/
def Video.compare_audio_formats (_v : Video) (a b : Format) : Ordering :=
  let a_quality := a.quality_info.quality.getD F64.zero
  let b_quality := b.quality_info.quality.getD F64.zero
  let cmp_quality := F64.cmp a_quality b_quality
  if cmp_quality ≠ .eq then cmp_quality
  else
    let a_abr := a.rates_info.audio_rate.getD F64.zero
    let b_abr := b.rates_info.audio_rate.getD F64.zero
    let cmp_abr := F64.cmp a_abr b_abr
    if cmp_abr ≠ .eq then cmp_abr
    else
      let a_asr := a.codec_info.asr.getD 0
      let b_asr := b.codec_info.asr.getD 0
      let cmp_asr := compare a_asr b_asr
      if cmp_asr ≠ .eq then cmp_asr
      else
        let a_channels := a.codec_info.audio_channels.getD 0
        let b_channels := b.codec_info.audio_channels.getD 0
        compare a_channels b_channels

/-- Rust `Iterator::max_by`: reduce keeping the accumulator only when it
compares `Greater`, so among equal maxima the last one wins. -/
def maxByCmp {α : Type} (c : α → α → Ordering) : List α → Option α
  | [] => none
  | x :: xs => some (xs.foldl (fun acc y => if c acc y = .gt then acc else y) x)

/-- Rust `Iterator::min_by`: reduce keeping the accumulator unless it
compares `Greater`, so among equal minima the first one wins. -/
def minByCmp {α : Type} (c : α → α → Ordering) : List α → Option α
  | [] => none
  | x :: xs => some (xs.foldl (fun acc y => if c acc y = .gt then y else acc) x)

/-- `Video::best_video_format`. -/
def Video.best_video_format (v : Video) : Option Format :=
  maxByCmp (v.compare_video_formats) (v.formats.filter Format.is_video)

/-- `Video::best_audio_format`. -/
def Video.best_audio_format (v : Video) : Option Format :=
  maxByCmp (v.compare_audio_formats) (v.formats.filter Format.is_audio)

/-- `Video::worst_video_format`. -/
def Video.worst_video_format (v : Video) : Option Format :=
  minByCmp (v.compare_video_formats) (v.formats.filter Format.is_video)

/-- `Video::worst_audio_format`. -/
def Video.worst_audio_format (v : Video) : Option Format :=
  minByCmp (v.compare_audio_formats) (v.formats.filter Format.is_audio)

/-! ## Sample values used by witnesses and counterexamples -/

/-- A fixed set of HTTP headers used to build concrete formats. -/
def sampleHeaders : HttpHeaders :=
  { user_agent := "Mozilla/5.0", accept := "*/*"
    accept_language := "en-us,en;q=0.5", sec_fetch_mode := "navigate" }

/-- A concrete format with no codecs, no manifest URL and no storyboard
fragments; the base the samples below are built from. -/
def baseFormat : Format :=
  { format := "18 - 640x360"
    format_id := "18"
    format_note := Option.none
    protocol := .Https
    language := Option.none
    has_drm := Option.none
    container := Option.none
    codec_info :=
      { audio_codec := Option.none, video_codec := Option.none
        audio_ext := .none, video_ext := .none
        audio_channels := Option.none, asr := Option.none }
    video_resolution :=
      { width := Option.none, height := Option.none, fps := Option.none
        resolution := "640x360", aspect_ratio := Option.none }
    download_info :=
      { url := "https://example.com/video", ext := .Mp4
        http_headers := sampleHeaders, manifest_url := Option.none
        downloader_options := Option.none }
    quality_info := { quality := Option.none, dynamic_range := Option.none }
    file_info := { filesize_approx := Option.none, filesize := Option.none }
    storyboard_info :=
      { rows := Option.none, columns := Option.none, fragments := Option.none }
    rates_info :=
      { video_rate := Option.none, audio_rate := Option.none
        total_rate := Option.none } }

/-- A concrete format carrying both an audio codec and a video codec. -/
def avFormat : Format :=
  { baseFormat with
    codec_info :=
      { baseFormat.codec_info with
        audio_codec := some "mp4a.40.2", video_codec := some "avc1.42001E" } }

/-! ## Claim C1 -/

/-- C1, counterexample: a format whose derived kind is AudioAndVideo has
`is_video = false` and `is_audio = false`, contradicting the claim that
`is_video` (resp. `is_audio`) is true exactly when the kind is VideoOnly
or AudioAndVideo (resp. AudioOnly or AudioAndVideo). -/
theorem c1_counterexample :
    avFormat.format_type = .AudioAndVideo ∧
    avFormat.is_video = false ∧ avFormat.is_audio = false :=
  ⟨rfl, rfl, rfl⟩

/-- C1, amended: `Format::is_video` returns true exactly when the derived
kind is VideoOnly, and `Format::is_audio` returns true exactly when the
derived kind is AudioOnly; a format whose kind is AudioAndVideo satisfies
neither predicate (the separate `FormatType::is_audio_and_video` covers
it). -/
theorem c1_amended (f : Format) :
    (f.is_video = true ↔ f.format_type = .Video) ∧
    (f.is_audio = true ↔ f.format_type = .Audio) ∧
    (f.format_type.is_audio_and_video = true ↔ f.format_type = .AudioAndVideo) := by
  rw [Format.is_video, Format.is_audio]
  rcases f.format_type with _ | _ | _ | _ | _ | _ <;>
    simp [FormatType.is_video, FormatType.is_audio, FormatType.is_audio_and_video]

/-! ## Claim C2 -/

/-- C2: classification is total and deterministic, and follows the ordered
first-match rule: a present manifest URL yields Manifest; else a present
storyboard fragment list yields Storyboard; else both codec ids present
yields AudioAndVideo, only the audio codec AudioOnly, only the video codec
VideoOnly, and neither Unknown.  `classify_spec` is that rule written from
the spec; `Format.format_type` is the source's function; they agree on
every Format (in particular on one with none of the four fields set), and
the result is a single FormatType, the same on every call. -/
theorem c2_classification_total (f : Format) :
    f.format_type = classify_spec f ∧
    f.format_type = f.format_type ∧
    ∃! k : FormatType, f.format_type = k := by
  refine ⟨?_, rfl, f.format_type, rfl, fun y hy => hy.symm⟩
  rcases hm : f.download_info.manifest_url with _ | u <;>
    rcases hs : f.storyboard_info.fragments with _ | fr <;>
    rcases ha : f.codec_info.audio_codec with _ | ac <;>
    rcases hv : f.codec_info.video_codec with _ | vc <;>
    simp [Format.format_type, classify_spec, hm, hs, ha, hv]

/-! ## Comparator laws and selection lemmas -/

/-- A comparison obtained by comparing keys. -/
def cmpOn {α κ : Type} (s : κ → κ → Ordering) (k : α → κ) (a b : α) : Ordering :=
  s (k a) (k b)

/-- The two comparator facts the reduction lemmas need: orientation and
transitivity of "not below". -/
structure OrientedTransCmp {α : Type} (c : α → α → Ordering) : Prop where
  swap_eq : ∀ a b, c a b = (c b a).swap
  ge_trans : ∀ a b d, c a b ≠ .lt → c b d ≠ .lt → c a d ≠ .lt

theorem OrientedTransCmp.refl_eq {α : Type} {c : α → α → Ordering}
    (hc : OrientedTransCmp c) (a : α) : c a a = .eq := by
  have h := hc.swap_eq a a
  rcases ho : c a a with _ | _ | _
  · rw [ho] at h
    simp [Ordering.swap] at h
  · rfl
  · rw [ho] at h
    simp [Ordering.swap] at h

theorem OrientedTransCmp.le_trans {α : Type} {c : α → α → Ordering}
    (hc : OrientedTransCmp c) (a b d : α) :
    c a b ≠ .gt → c b d ≠ .gt → c a d ≠ .gt := by
  intro h1 h2
  have s1 : c b a ≠ .lt := by
    rw [hc.swap_eq]
    rcases ho : c a b with _ | _ | _ <;> simp [Ordering.swap]
    exact absurd ho h1
  have s2 : c d b ≠ .lt := by
    rw [hc.swap_eq]
    rcases ho : c b d with _ | _ | _ <;> simp [Ordering.swap]
    exact absurd ho h2
  have s3 : c d a ≠ .lt := hc.ge_trans d b a s2 s1
  rw [hc.swap_eq]
  rcases ho : c d a with _ | _ | _ <;> simp [Ordering.swap]
  exact absurd ho s3

theorem LawfulCmp.not_lt_cases {κ : Type} {s : κ → κ → Ordering}
    (hs : LawfulCmp s) (a b : κ) (h : s a b ≠ .lt) : s a b = .gt ∨ a = b := by
  rcases ho : s a b with _ | _ | _
  · exact absurd ho h
  · exact Or.inr ((hs.eq_iff _ _).mp ho)
  · exact Or.inl rfl

theorem LawfulCmp.gt_iff {κ : Type} {s : κ → κ → Ordering}
    (hs : LawfulCmp s) (a b : κ) : s a b = .gt ↔ s b a = .lt := by
  rw [hs.swap_eq]
  rcases ho : s b a with _ | _ | _ <;> simp [Ordering.swap]

theorem orientedTransCmp_cmpOn {α κ : Type} {s : κ → κ → Ordering}
    {k : α → κ} (hs : LawfulCmp s) : OrientedTransCmp (cmpOn s k) := by
  constructor
  · intro a b
    rw [cmpOn, cmpOn, hs.swap_eq]
  · intro a b d h1 h2
    rw [cmpOn] at h1 h2 ⊢
    rcases hs.not_lt_cases _ _ h1 with hg1 | he1
    · rcases hs.not_lt_cases _ _ h2 with hg2 | he2
      · have l1 := (hs.gt_iff _ _).mp hg1
        have l2 := (hs.gt_iff _ _).mp hg2
        have l3 := hs.lt_trans _ _ _ l2 l1
        rw [(hs.gt_iff _ _).mpr l3]
        simp
      · rw [← he2, hg1]
        simp
    · rw [he1]
      exact h2

/-- The accumulator step of Rust `max_by`. -/
theorem foldl_max_invariant {α : Type} {c : α → α → Ordering}
    (hc : OrientedTransCmp c) (xs : List α) :
    ∀ x : α,
      (xs.foldl (fun acc y => if c acc y = .gt then acc else y) x) ∈ x :: xs ∧
      c (xs.foldl (fun acc y => if c acc y = .gt then acc else y) x) x ≠ .lt ∧
      ∀ z ∈ xs, c (xs.foldl (fun acc y => if c acc y = .gt then acc else y) x) z ≠ .lt := by
  induction xs with
  | nil =>
      intro x
      refine ⟨List.mem_singleton.mpr rfl, ?_, by simp⟩
      rw [List.foldl_nil, hc.refl_eq]
      simp
  | cons y ys ih =>
      intro x
      rw [List.foldl_cons]
      by_cases h : c x y = .gt
      · rw [if_pos h]
        rcases ih x with ⟨hmem, hx, hall⟩
        have hy : c (ys.foldl (fun acc y => if c acc y = .gt then acc else y) x) y ≠ .lt := by
          have hxy : c x y ≠ .lt := by rw [h]; simp
          exact hc.ge_trans _ _ _ hx hxy
        refine ⟨?_, hx, ?_⟩
        · rcases List.mem_cons.mp hmem with h1 | h1
          · exact List.mem_cons.mpr (Or.inl h1)
          · exact List.mem_cons.mpr (Or.inr (List.mem_cons.mpr (Or.inr h1)))
        · intro z hz
          rcases List.mem_cons.mp hz with h1 | h1
          · rw [h1]; exact hy
          · exact hall z h1
      · rw [if_neg h]
        rcases ih y with ⟨hmem, hy, hall⟩
        have hyx : c y x ≠ .lt := by
          intro hlt
          exact h (by rw [hc.swap_eq x y, hlt]; rfl)
        have hx : c (ys.foldl (fun acc y => if c acc y = .gt then acc else y) y) x ≠ .lt :=
          hc.ge_trans _ _ _ hy hyx
        refine ⟨?_, hx, ?_⟩
        · rcases List.mem_cons.mp hmem with h1 | h1
          · exact List.mem_cons.mpr (Or.inr (List.mem_cons.mpr (Or.inl h1)))
          · exact List.mem_cons.mpr (Or.inr (List.mem_cons.mpr (Or.inr h1)))
        · intro z hz
          rcases List.mem_cons.mp hz with h1 | h1
          · rw [h1]; exact hy
          · exact hall z h1

/-- The accumulator step of Rust `min_by`. -/
theorem foldl_min_invariant {α : Type} {c : α → α → Ordering}
    (hc : OrientedTransCmp c) (xs : List α) :
    ∀ x : α,
      (xs.foldl (fun acc y => if c acc y = .gt then y else acc) x) ∈ x :: xs ∧
      c (xs.foldl (fun acc y => if c acc y = .gt then y else acc) x) x ≠ .gt ∧
      ∀ z ∈ xs, c (xs.foldl (fun acc y => if c acc y = .gt then y else acc) x) z ≠ .gt := by
  induction xs with
  | nil =>
      intro x
      refine ⟨List.mem_singleton.mpr rfl, ?_, by simp⟩
      rw [List.foldl_nil, hc.refl_eq]
      simp
  | cons y ys ih =>
      intro x
      rw [List.foldl_cons]
      by_cases h : c x y = .gt
      · rw [if_pos h]
        rcases ih y with ⟨hmem, hy, hall⟩
        have hyx : c y x ≠ .gt := by
          rw [hc.swap_eq, h]
          simp [Ordering.swap]
        have hx : c (ys.foldl (fun acc y => if c acc y = .gt then y else acc) y) x ≠ .gt :=
          hc.le_trans _ _ _ hy hyx
        refine ⟨?_, hx, ?_⟩
        · rcases List.mem_cons.mp hmem with h1 | h1
          · exact List.mem_cons.mpr (Or.inr (List.mem_cons.mpr (Or.inl h1)))
          · exact List.mem_cons.mpr (Or.inr (List.mem_cons.mpr (Or.inr h1)))
        · intro z hz
          rcases List.mem_cons.mp hz with h1 | h1
          · rw [h1]; exact hy
          · exact hall z h1
      · rw [if_neg h]
        rcases ih x with ⟨hmem, hx, hall⟩
        have hy : c (ys.foldl (fun acc y => if c acc y = .gt then y else acc) x) y ≠ .gt :=
          hc.le_trans _ _ _ hx h
        refine ⟨?_, hx, ?_⟩
        · rcases List.mem_cons.mp hmem with h1 | h1
          · exact List.mem_cons.mpr (Or.inl h1)
          · exact List.mem_cons.mpr (Or.inr (List.mem_cons.mpr (Or.inr h1)))
        · intro z hz
          rcases List.mem_cons.mp hz with h1 | h1
          · rw [h1]; exact hy
          · exact hall z h1

theorem maxByCmp_nonempty {α : Type} {c : α → α → Ordering}
    (hc : OrientedTransCmp c) (l : List α) (h : l ≠ []) :
    ∃ r, maxByCmp c l = some r ∧ r ∈ l ∧ ∀ z ∈ l, c r z ≠ .lt := by
  rcases l with _ | ⟨x, xs⟩
  · exact absurd rfl h
  · rcases foldl_max_invariant hc xs x with ⟨hmem, hx, hall⟩
    refine ⟨_, rfl, hmem, ?_⟩
    intro z hz
    rcases List.mem_cons.mp hz with h1 | h1
    · rw [h1]; exact hx
    · exact hall z h1

theorem minByCmp_nonempty {α : Type} {c : α → α → Ordering}
    (hc : OrientedTransCmp c) (l : List α) (h : l ≠ []) :
    ∃ r, minByCmp c l = some r ∧ r ∈ l ∧ ∀ z ∈ l, c r z ≠ .gt := by
  rcases l with _ | ⟨x, xs⟩
  · exact absurd rfl h
  · rcases foldl_min_invariant hc xs x with ⟨hmem, hx, hall⟩
    refine ⟨_, rfl, hmem, ?_⟩
    intro z hz
    rcases List.mem_cons.mp hz with h1 | h1
    · rw [h1]; exact hx
    · exact hall z h1

/-! ## Claim C3: the comparators -/

/-- The priority key of the video comparator, as the spec words it:
quality score (missing 0.0), vertical resolution (missing 0), frame rate
(missing 0.0), video bitrate (missing 0.0). -/
def videoKey (f : Format) : F64 × ℤ × F64 × F64 :=
  (f.quality_info.quality.getD F64.zero,
   f.video_resolution.height.getD 0,
   f.video_resolution.fps.getD F64.zero,
   f.rates_info.video_rate.getD F64.zero)

/-- The priority key of the audio comparator, as the spec words it:
quality score, audio bitrate, sample rate, channel count, with the same
missing-value defaults. -/
def audioKey (f : Format) : F64 × F64 × ℤ × ℤ :=
  (f.quality_info.quality.getD F64.zero,
   f.rates_info.audio_rate.getD F64.zero,
   f.codec_info.asr.getD 0,
   f.codec_info.audio_channels.getD 0)

/-- The spec-side video order: lexicographic on `videoKey`, each
floating-point tier compared by the NaN-safe `F64.cmp`. -/
def videoCmpSpec : F64 × ℤ × F64 × F64 → F64 × ℤ × F64 × F64 → Ordering :=
  cmpLex F64.cmp (cmpLex (fun a b : ℤ => compare a b) (cmpLex F64.cmp F64.cmp))

/-- The spec-side audio order: lexicographic on `audioKey`. -/
def audioCmpSpec : F64 × F64 × ℤ × ℤ → F64 × F64 × ℤ × ℤ → Ordering :=
  cmpLex F64.cmp (cmpLex F64.cmp
    (cmpLex (fun a b : ℤ => compare a b) (fun a b : ℤ => compare a b)))

theorem videoCmpSpec_lawful : LawfulCmp videoCmpSpec :=
  lawfulCmp_cmpLex F64.lawful_cmp
    (lawfulCmp_cmpLex lawfulCmp_compare
      (lawfulCmp_cmpLex F64.lawful_cmp F64.lawful_cmp))

theorem audioCmpSpec_lawful : LawfulCmp audioCmpSpec :=
  lawfulCmp_cmpLex F64.lawful_cmp
    (lawfulCmp_cmpLex F64.lawful_cmp
      (lawfulCmp_cmpLex lawfulCmp_compare lawfulCmp_compare))

theorem ordering_if_chain (o1 o2 o3 o4 : Ordering) :
    (if o1 ≠ .eq then o1 else if o2 ≠ .eq then o2 else
      if o3 ≠ .eq then o3 else o4) =
    o1.then (o2.then (o3.then o4)) := by
  cases o1 <;> cases o2 <;> cases o3 <;> simp [Ordering.then]

theorem compare_video_formats_eq_key (v : Video) (a b : Format) :
    v.compare_video_formats a b = cmpOn videoCmpSpec videoKey a b := by
  simp only [Video.compare_video_formats, cmpOn, videoCmpSpec, videoKey, cmpLex]
  exact ordering_if_chain _ _ _ _

theorem compare_audio_formats_eq_key (v : Video) (a b : Format) :
    v.compare_audio_formats a b = cmpOn audioCmpSpec audioKey a b := by
  simp only [Video.compare_audio_formats, cmpOn, audioCmpSpec, audioKey, cmpLex]
  exact ordering_if_chain _ _ _ _

theorem video_cmp_oriented (v : Video) :
    OrientedTransCmp (v.compare_video_formats) := by
  have h := orientedTransCmp_cmpOn (k := videoKey) videoCmpSpec_lawful
  constructor
  · intro a b
    rw [compare_video_formats_eq_key, compare_video_formats_eq_key]
    exact h.swap_eq a b
  · intro a b d h1 h2
    rw [compare_video_formats_eq_key] at h1 h2 ⊢
    exact h.ge_trans a b d h1 h2

theorem audio_cmp_oriented (v : Video) :
    OrientedTransCmp (v.compare_audio_formats) := by
  have h := orientedTransCmp_cmpOn (k := audioKey) audioCmpSpec_lawful
  constructor
  · intro a b
    rw [compare_audio_formats_eq_key, compare_audio_formats_eq_key]
    exact h.swap_eq a b
  · intro a b d h1 h2
    rw [compare_audio_formats_eq_key] at h1 h2 ⊢
    exact h.ge_trans a b d h1 h2

/-- C3: `compare_video_formats` is exactly the lexicographic comparison of
quality score, vertical resolution, frame rate and video bitrate (missing
values defaulted to 0.0 resp. 0), and `compare_audio_formats` of quality
score, audio bitrate, sample rate and channel count; each later tier only
breaks ties of the earlier ones (that is what the `Ordering.then`
composition in the spec-side order computes), every floating-point tier
uses the NaN-safe total order `F64.cmp`, and both comparisons are
consistent: antisymmetric under swapping the arguments and transitive. -/
theorem c3_comparators (v : Video) (a b d : Format) :
    v.compare_video_formats a b = videoCmpSpec (videoKey a) (videoKey b) ∧
    v.compare_audio_formats a b = audioCmpSpec (audioKey a) (audioKey b) ∧
    v.compare_video_formats a b = (v.compare_video_formats b a).swap ∧
    v.compare_audio_formats a b = (v.compare_audio_formats b a).swap ∧
    (v.compare_video_formats a b = .lt → v.compare_video_formats b d = .lt →
      v.compare_video_formats a d = .lt) ∧
    (v.compare_audio_formats a b = .lt → v.compare_audio_formats b d = .lt →
      v.compare_audio_formats a d = .lt) := by
  refine ⟨compare_video_formats_eq_key v a b, compare_audio_formats_eq_key v a b,
    (video_cmp_oriented v).swap_eq a b, (audio_cmp_oriented v).swap_eq a b, ?_, ?_⟩
  · intro h1 h2
    rw [compare_video_formats_eq_key] at h1 h2 ⊢
    exact videoCmpSpec_lawful.lt_trans _ _ _ h1 h2
  · intro h1 h2
    rw [compare_audio_formats_eq_key] at h1 h2 ⊢
    exact audioCmpSpec_lawful.lt_trans _ _ _ h1 h2

/-! ## Claim C4: best/worst selection -/

/-- C4: the four selectors filter the format list by `is_video`
(respectively `is_audio`); an empty filtered set gives none for best and
worst alike, a singleton gives that one element for both, and on any
non-empty filtered set best returns a maximum and worst a minimum of the
set under the corresponding comparator. -/
theorem c4_selection (v : Video) :
    (v.formats.filter Format.is_video = [] →
      v.best_video_format = Option.none ∧ v.worst_video_format = Option.none) ∧
    (∀ f, v.formats.filter Format.is_video = [f] →
      v.best_video_format = some f ∧ v.worst_video_format = some f) ∧
    (v.formats.filter Format.is_video ≠ [] →
      (∃ r, v.best_video_format = some r ∧ r ∈ v.formats.filter Format.is_video ∧
        ∀ z ∈ v.formats.filter Format.is_video, v.compare_video_formats r z ≠ .lt) ∧
      (∃ r, v.worst_video_format = some r ∧ r ∈ v.formats.filter Format.is_video ∧
        ∀ z ∈ v.formats.filter Format.is_video, v.compare_video_formats r z ≠ .gt)) ∧
    (v.formats.filter Format.is_audio = [] →
      v.best_audio_format = Option.none ∧ v.worst_audio_format = Option.none) ∧
    (∀ f, v.formats.filter Format.is_audio = [f] →
      v.best_audio_format = some f ∧ v.worst_audio_format = some f) ∧
    (v.formats.filter Format.is_audio ≠ [] →
      (∃ r, v.best_audio_format = some r ∧ r ∈ v.formats.filter Format.is_audio ∧
        ∀ z ∈ v.formats.filter Format.is_audio, v.compare_audio_formats r z ≠ .lt) ∧
      (∃ r, v.worst_audio_format = some r ∧ r ∈ v.formats.filter Format.is_audio ∧
        ∀ z ∈ v.formats.filter Format.is_audio, v.compare_audio_formats r z ≠ .gt)) := by
  refine ⟨?_, ?_, ?_, ?_, ?_, ?_⟩
  · intro h
    rw [Video.best_video_format, Video.worst_video_format, h]
    exact ⟨rfl, rfl⟩
  · intro f h
    rw [Video.best_video_format, Video.worst_video_format, h]
    exact ⟨rfl, rfl⟩
  · intro h
    exact ⟨maxByCmp_nonempty (video_cmp_oriented v) _ h,
      minByCmp_nonempty (video_cmp_oriented v) _ h⟩
  · intro h
    rw [Video.best_audio_format, Video.worst_audio_format, h]
    exact ⟨rfl, rfl⟩
  · intro f h
    rw [Video.best_audio_format, Video.worst_audio_format, h]
    exact ⟨rfl, rfl⟩
  · intro h
    exact ⟨maxByCmp_nonempty (audio_cmp_oriented v) _ h,
      minByCmp_nonempty (audio_cmp_oriented v) _ h⟩

/-- A concrete audio-only format. -/
def audioFmt : Format :=
  { baseFormat with
    codec_info := { baseFormat.codec_info with audio_codec := some "opus" } }

/-- A concrete video-only format. -/
def videoFmt : Format :=
  { baseFormat with
    codec_info := { baseFormat.codec_info with video_codec := some "vp9" } }

/-- A concrete video whose format list holds one audio-only and one
video-only format. -/
def sampleVideo : Video :=
  { id := "dQw4w9WgXcQ"
    title := "Sample"
    thumbnail := "https://example.com/thumb.jpg"
    description := "A sample video"
    availability := "public"
    upload_date := 1729555200
    view_count := 1000
    like_count := Option.none
    comment_count := 10
    channel := "Sample Channel"
    channel_id := "UC123"
    channel_url := "https://example.com/channel"
    channel_follower_count := 42
    formats := [audioFmt, videoFmt]
    thumbnails := []
    automatic_captions := []
    tags := []
    categories := []
    age_limit := 0
    has_drm := Option.none
    live_status := "not_live"
    playable_in_embed := true
    extractor_info := { extractor := "youtube", extractor_key := "Youtube" }
    version :=
      { version := "2024.10.22", current_git_head := Option.none
        release_git_head := "abcdef", repository := "yt-dlp/yt-dlp" } }

/-- C4, witness: on the concrete sample video the filtered video set is
the singleton video-only format and the filtered audio set the singleton
audio-only format, and best and worst both return them. -/
theorem c4_witness :
    sampleVideo.best_video_format = some videoFmt ∧
    sampleVideo.worst_video_format = some videoFmt ∧
    sampleVideo.best_audio_format = some audioFmt ∧
    sampleVideo.worst_audio_format = some audioFmt := by
  have h := c4_selection sampleVideo
  exact ⟨(h.2.1 videoFmt rfl).1, (h.2.1 videoFmt rfl).2,
    (h.2.2.2.2.1 audioFmt rfl).1, (h.2.2.2.2.1 audioFmt rfl).2⟩

/-- A concrete format with quality score 1.0. -/
def fmtQ1 : Format :=
  { baseFormat with
    quality_info := { quality := some (.val 1), dynamic_range := Option.none } }

/-- A concrete format with quality score 2.0. -/
def fmtQ2 : Format :=
  { baseFormat with
    quality_info := { quality := some (.val 2), dynamic_range := Option.none } }

/-- A concrete format whose quality score is NaN, which the total order
places above every other value. -/
def fmtQ3 : Format :=
  { baseFormat with
    quality_info := { quality := some .nan, dynamic_range := Option.none } }

/-- C3, witness: transitivity applied at concrete formats with quality
1.0, 2.0 and NaN; the NaN-quality format is strictly greatest. -/
theorem c3_witness :
    sampleVideo.compare_video_formats fmtQ1 fmtQ3 = .lt ∧
    sampleVideo.compare_audio_formats fmtQ1 fmtQ3 = .lt :=
  ⟨(c3_comparators sampleVideo fmtQ1 fmtQ2 fmtQ3).2.2.2.2.1 (by decide) (by decide),
   (c3_comparators sampleVideo fmtQ1 fmtQ2 fmtQ3).2.2.2.2.2 (by decide) (by decide)⟩

/-! ## Platform, architecture and errors (src/fetcher/platform.rs, src/error.rs) -/

/-- The operating system where the program is running. -/
inductive Platform where
  | Windows | Linux | Mac
  | Unknown (raw : String)
deriving DecidableEq

/-- The architecture of the CPU where the program is running. -/
inductive Architecture where
  | X64 | X86 | Armv7l | Aarch64
  | Unknown (raw : String)
deriving DecidableEq

/-- The error enum of src/error.rs.  Payloads of the wrapped external
error types are modelled by their display strings; the `IO` variant is
spelled `ioFailure` here. -/
inductive Error where
  | Runtime (msg : String)
  | ioFailure (msg : String)
  | Zip (msg : String)
  | Reqwest (msg : String)
  | Serde (msg : String)
  | Github (platform : Platform) (architecture : Architecture)
  | Binary (platform : Platform) (architecture : Architecture)
  | Command (msg : String)
  | Video (msg : String)
  | Path (msg : String)
  | Unknown (msg : String)
deriving DecidableEq

/-! ## The process executor (src/utils/executor.rs) -/

/-- The output of a process. -/
structure ProcessOutput where
  stdout : String
  stderr : String
  code : ℤ
deriving DecidableEq

/-- A command executor. -/
structure Executor where
  executable_path : String
  timeout_millis : ℕ
  args : List String
deriving DecidableEq

/-- The tail of `Executor::execute` (src/utils/executor.rs lines 93-116),
run after the child has exited within the timeout: the results of
decoding the two drained pipes (`String::from_utf8`, `none` on invalid
UTF-8) and the exit status (`none` when the child was killed by a signal,
so that `code()` is `None` and `success()` is false) determine the value
the call returns. -/
def executeResult (stdoutRes stderrRes : Option String)
    (exit_status : Option ℤ) : Except Error ProcessOutput :=
  match stdoutRes with
  | Option.none => .error (.Command "Failed to parse stdout")
  | some stdout =>
    match stderrRes with
    | Option.none => .error (.Command "Failed to parse stderr")
    | some stderr =>
      let code := exit_status.getD (-1)
      if exit_status = some 0 then
        .ok { stdout := stdout, stderr := stderr, code := code }
      else
        .error (.Command
          ("Process failed with code " ++ toString code ++ ": " ++ stderr))

/-! ## Claim C6 -/

/-- C6: when the child exits with a non-zero code the call returns a
Command failure carrying the exit code and the decoded stderr text (in
the formatted message) and never a ProcessOutput; when it exits with code
zero the call returns a ProcessOutput holding stdout, stderr and the exit
code together. -/
theorem c6_exit_code (stdout stderr : String) (c : ℤ) :
    (c ≠ 0 →
      executeResult (some stdout) (some stderr) (some c) =
        .error (.Command
          ("Process failed with code " ++ toString c ++ ": " ++ stderr)) ∧
      ∀ out : ProcessOutput,
        executeResult (some stdout) (some stderr) (some c) ≠ .ok out) ∧
    executeResult (some stdout) (some stderr) (some 0) =
      .ok { stdout := stdout, stderr := stderr, code := 0 } := by
  constructor
  · intro hc
    have hne : ¬ (some c = some (0 : ℤ)) := by
      intro h
      exact hc (Option.some.inj h)
    constructor
    · rw [executeResult]
      simp only [if_neg hne]
      rfl
    · intro out
      rw [executeResult]
      simp only [if_neg hne]
      intro h
      exact Except.noConfusion h
  · rw [executeResult]
    simp

/-- C6, witness: a non-zero exit yields the Command error with the code
and stderr in the message, a zero exit yields the full output. -/
theorem c6_witness :
    executeResult (some "") (some "boom") (some 2) =
      .error (.Command "Process failed with code 2: boom") ∧
    executeResult (some "a") (some "") (some 0) =
      .ok { stdout := "a", stderr := "", code := 0 } := by
  constructor
  · rw [((c6_exit_code "" "boom" 2).1 (by decide)).1]
    rfl
  · exact (c6_exit_code "a" "" 0).2

/-! ## The ffmpeg static-build fetcher (src/fetcher/deps/ffmpeg.rs) -/

/-- A downloadable artifact. -/
structure Asset where
  name : String
  download_url : String
deriving DecidableEq

/-- The asset chosen for the current platform and architecture. -/
structure WantedRelease where
  asset_name : String
  asset_url : String
deriving DecidableEq

/-- Splitting a character list at every occurrence of a separator
character, keeping empty segments: the behaviour of Rust
`str::split('/')` used by the fetcher. -/
def splitChar (c : Char) : List Char → List (List Char)
  | [] => [[]]
  | x :: xs =>
    let r := splitChar c xs
    if x = c then [] :: r
    else (x :: r.headD []) :: r.tail

/-- Rust `url.split('/')` as a list of strings. -/
def urlSplit (s : String) : List String :=
  (splitChar '/' s.toList).map (fun l => String.mk l)

/-- `BuildFetcher::select_asset` (src/fetcher/deps/ffmpeg.rs lines
98-137): a fixed table maps each supported (platform, architecture) pair
to a literal download URL, and the asset name is the final segment of the
URL split on the slash character. -/
def select_asset (platform : Platform) (architecture : Architecture) :
    Option Asset :=
  let url? : Option String :=
    match platform, architecture with
    | .Windows, _ =>
        some "https://www.gyan.dev/ffmpeg/builds/ffmpeg-release-essentials.zip"
    | .Mac, .X64 => some "https://www.osxexperts.net/ffmpeg71intel.zip"
    | .Mac, .Aarch64 => some "https://www.osxexperts.net/ffmpeg71arm.zip"
    | .Linux, .X64 =>
        some "https://johnvansickle.com/ffmpeg/releases/ffmpeg-release-amd64-static.tar.xz"
    | .Linux, .X86 =>
        some "https://johnvansickle.com/ffmpeg/releases/ffmpeg-release-i686-static.tar.xz"
    | .Linux, .Armv7l =>
        some "https://johnvansickle.com/ffmpeg/releases/ffmpeg-release-armhf-static.tar.xz"
    | .Linux, .Aarch64 =>
        some "https://johnvansickle.com/ffmpeg/releases/ffmpeg-release-arm64-static.tar.xz"
    | _, _ => Option.none
  match url? with
  | Option.none => Option.none
  | some url =>
    match (urlSplit url).getLast? with
    | Option.none => Option.none
    | some name => some { name := name, download_url := url }

/-- `BuildFetcher::fetch_binary_for_platform` (lines 69-89): resolve the
asset or fail with the typed no-static-binary error naming the platform
and architecture. -/
def fetch_binary_for_platform (platform : Platform)
    (architecture : Architecture) : Except Error WantedRelease :=
  match select_asset platform architecture with
  | Option.none => .error (.Binary platform architecture)
  | some asset =>
      .ok { asset_name := asset.name, asset_url := asset.download_url }

/-- Membership in the static-build table as the claim enumerates it:
Windows with any architecture; Mac with X64 or Aarch64; Linux with X64,
X86, Armv7l or Aarch64. -/
def tableMember (platform : Platform) (architecture : Architecture) : Prop :=
  platform = .Windows ∨
  (platform = .Mac ∧ (architecture = .X64 ∨ architecture = .Aarch64)) ∨
  (platform = .Linux ∧
    (architecture = .X64 ∨ architecture = .X86 ∨
     architecture = .Armv7l ∨ architecture = .Aarch64))

instance (p : Platform) (a : Architecture) : Decidable (tableMember p a) := by
  rw [tableMember]
  infer_instance

/-! ## Claim C9 -/

/-- C9: for every pair in the static-build table, `select_asset` returns
an asset whose non-empty name is the final path segment of the fixed
download URL and whose URL is that table entry, and
`fetch_binary_for_platform` succeeds with exactly that pair of strings;
for every pair absent from the table both fail, the latter with the typed
no-static-binary error naming the platform and the architecture. -/
theorem c9_static_table (p : Platform) (a : Architecture) :
    (tableMember p a →
      ∃ asset, select_asset p a = some asset ∧ asset.name ≠ "" ∧
        (urlSplit asset.download_url).getLast? = some asset.name ∧
        fetch_binary_for_platform p a =
          .ok { asset_name := asset.name, asset_url := asset.download_url }) ∧
    (¬ tableMember p a →
      select_asset p a = Option.none ∧
      fetch_binary_for_platform p a = .error (.Binary p a)) := by
  cases p <;> cases a <;>
    refine ⟨fun h => ?_, fun h => ?_⟩ <;>
    first
      | exact ⟨_, rfl, by decide, by decide, rfl⟩
      | exact ⟨rfl, rfl⟩
      | exact absurd h (by simp [tableMember])

/-- C9, witness: Linux with X64 resolves to the amd64 static build, and
Mac with X86 is absent from the table, so asset selection returns none
and the fetch fails with the typed error. -/
theorem c9_witness :
    fetch_binary_for_platform .Linux .X64 =
      .ok { asset_name := "ffmpeg-release-amd64-static.tar.xz"
            asset_url := "https://johnvansickle.com/ffmpeg/releases/ffmpeg-release-amd64-static.tar.xz" } ∧
    select_asset .Mac .X86 = Option.none ∧
    fetch_binary_for_platform .Mac .X86 = .error (.Binary .Mac .X86) := by
  have hpos := (c9_static_table .Linux .X64).1 (by decide)
  have hneg := (c9_static_table .Mac .X86).2 (by decide)
  obtain ⟨asset, hsel, hne, hlast, hfetch⟩ := hpos
  refine ⟨?_, hneg.1, hneg.2⟩
  have heq : asset =
      { name := "ffmpeg-release-amd64-static.tar.xz"
        download_url := "https://johnvansickle.com/ffmpeg/releases/ffmpeg-release-amd64-static.tar.xz" } := by
    have h0 : select_asset .Linux .X64 = some
        { name := "ffmpeg-release-amd64-static.tar.xz"
          download_url := "https://johnvansickle.com/ffmpeg/releases/ffmpeg-release-amd64-static.tar.xz" } := by
      decide
    rw [h0] at hsel
    exact (Option.some.inj hsel).symm
  rw [hfetch, heq]

/-! ## Zip extraction path safety (src/utils/file_system.rs, extract_zip) -/

/-- The path components of a zip entry name as `Path::components` views
them: split on the slash, dropping empty segments and `.`; `..` is kept. -/
def pathComps (name : String) : List String :=
  ((splitChar '/' name.toList).map (fun l => String.mk l)).filter
    (fun c => c != "" && c != ".")

/-- The depth check of the zip crate's `enclosed_name`: walk the
components keeping a depth counter, a normal component pushes, a
parent-directory component pops and fails when the depth is already
zero. -/
def depthOk : List String → ℕ → Bool
  | [], _ => true
  | c :: rest, d =>
    if c = ".." then
      match d with
      | 0 => false
      | d2 + 1 => depthOk rest d2
    else depthOk rest (d + 1)

/-- `ZipFile::enclosed_name` viewed as a predicate (zip crate): the name
is rejected when it holds a NUL byte, is absolute, or traverses above the
extraction root. -/
def enclosedSafe (name : String) : Bool :=
  if name.toList.contains (Char.ofNat 0) then false
  else if name.toList.head? = some '/' then false
  else depthOk (pathComps name) 0

/-- Lexical resolution of path components over a stack of already-resolved
components (held reversed): a normal component pushes, `..` pops, and
popping an empty stack means escaping the root. -/
def resolveComps : List String → List String → Option (List String)
  | [], acc => some acc
  | c :: rest, acc =>
    if c = ".." then
      match acc with
      | [] => Option.none
      | _ :: t => resolveComps rest t
    else resolveComps rest (c :: acc)

/-- The relative path a safe entry name lands at below the destination
directory: `none` exactly when the name is not safe to join. -/
def safeSuffix (name : String) : Option (List String) :=
  if name.toList.contains (Char.ofNat 0) then Option.none
  else if name.toList.head? = some '/' then Option.none
  else (resolveComps (pathComps name) []).map List.reverse

theorem depthOk_iff_resolve (comps : List String) :
    ∀ acc : List String,
      (depthOk comps acc.length = true ↔ (resolveComps comps acc).isSome) := by
  induction comps with
  | nil =>
      intro acc
      simp [depthOk, resolveComps]
  | cons c rest ih =>
      intro acc
      by_cases hc : c = ".."
      · rcases acc with _ | ⟨a, t⟩
        · simp [depthOk, resolveComps, hc]
        · simpa [depthOk, resolveComps, hc] using ih t
      · simpa [depthOk, resolveComps, hc] using ih (c :: acc)

/-- The crate's depth check accepts exactly the names whose lexical
resolution stays below the root. -/
theorem enclosedSafe_iff (name : String) :
    enclosedSafe name = true ↔ (safeSuffix name).isSome := by
  rw [enclosedSafe, safeSuffix]
  by_cases h0 : name.toList.contains (Char.ofNat 0) = true
  · rw [if_pos h0, if_pos h0]
    simp
  · rw [if_neg h0, if_neg h0]
    by_cases h1 : name.toList.head? = some '/'
    · rw [if_pos h1, if_pos h1]
      simp
    · rw [if_neg h1, if_neg h1]
      simpa using depthOk_iff_resolve (pathComps name) []

/-- Resolution started above a base stack preserves the base whenever the
same resolution already succeeds on the empty stack: safe entries can
never pop components of the destination directory. -/
theorem resolveComps_extend (comps : List String) :
    ∀ acc base : List String, (resolveComps comps acc).isSome →
      resolveComps comps (acc ++ base) =
        (resolveComps comps acc).map (fun l => l ++ base) := by
  induction comps with
  | nil =>
      intro acc base _
      simp [resolveComps]
  | cons c rest ih =>
      intro acc base hsome
      by_cases hc : c = ".."
      · subst hc
        rcases acc with _ | ⟨a, t⟩
        · simp [resolveComps] at hsome
        · simp only [List.cons_append]
          simp only [resolveComps, if_pos rfl] at hsome ⊢
          exact ih t base hsome
      · simp only [resolveComps, if_neg hc] at hsome ⊢
        rw [← List.cons_append]
        exact ih (c :: acc) base hsome

/-- One entry of a zip archive; only the name and the body bytes matter
to extraction. -/
structure ZipEntry where
  name : String
  data : List ℕ
deriving DecidableEq

/-- The zip crate treats an entry as a directory when its name ends with
the slash character, and as a file otherwise. -/
def ZipEntry.isDir (e : ZipEntry) : Bool :=
  e.name.toList.getLast? = some '/'

/-- `extract_zip` (src/utils/file_system.rs lines 94-128) over an
abstract filesystem: entries are processed in order; an entry rejected by
`enclosed_name` (equivalently, by `safeSuffix`, see `enclosedSafe_iff`)
aborts the call with the Unknown error the source wraps it in; an
accepted entry materialises, below the destination, its parent directory
and its file (or just its directory).  The first component of the result
lists every filesystem path written or created, as resolved component
lists; the second carries the error, if any. -/
def extract_zip_model (dest : List String) :
    List ZipEntry → List (List String) × Option Error
  | [] => ([], Option.none)
  | e :: rest =>
    match safeSuffix e.name with
    | Option.none => ([], some (.Unknown "Failed to get file name"))
    | some suffix =>
      let target := dest ++ suffix
      let parent := dest ++
        ((resolveComps ((pathComps e.name).dropLast) []).map List.reverse).getD []
      let ops := if e.isDir then [target] else [parent, target]
      let next := extract_zip_model dest rest
      (ops ++ next.1, next.2)

/-! ## Claim C8 -/

/-- C8: `extract_zip` never materialises a path outside the destination
directory.  Every path the model writes or creates is the destination
followed by a suffix; for a safe entry the lexical resolution of the
joined path lands exactly at that suffix below the destination (no
component of the destination is ever popped); the source's gate
(`enclosed_name`, modelled by `enclosedSafe`) accepts exactly the names
whose resolution stays below the root; and an archive holding an entry
whose name traverses above the root makes the extraction call fail
instead of materialising the entry. -/
theorem c8_zip_safety (dest : List String) (entries : List ZipEntry) :
    (∀ name, enclosedSafe name = true ↔ (safeSuffix name).isSome) ∧
    (∀ p ∈ (extract_zip_model dest entries).1, ∃ suffix, p = dest ++ suffix) ∧
    (∀ name suffix, safeSuffix name = some suffix →
      (resolveComps (pathComps name) dest.reverse).map List.reverse =
        some (dest ++ suffix)) ∧
    (∀ e ∈ entries, safeSuffix e.name = Option.none →
      ((extract_zip_model dest entries).2).isSome = true) := by
  refine ⟨enclosedSafe_iff, ?_, ?_, ?_⟩
  · induction entries with
    | nil =>
        intro p hp
        simp [extract_zip_model] at hp
    | cons e rest ih =>
        intro p hp
        rcases hs : safeSuffix e.name with _ | suffix
        · simp [extract_zip_model, hs] at hp
        · by_cases hd : e.isDir
          · simp [extract_zip_model, hs, hd] at hp
            rcases hp with hp | hp
            · exact ⟨suffix, hp⟩
            · exact ih p hp
          · simp [extract_zip_model, hs, hd] at hp
            rcases hp with hp | hp | hp
            · exact ⟨_, hp⟩
            · exact ⟨suffix, hp⟩
            · exact ih p hp
  · intro name suffix h
    rw [safeSuffix] at h
    by_cases h0 : name.toList.contains (Char.ofNat 0) = true
    · rw [if_pos h0] at h
      simp at h
    · rw [if_neg h0] at h
      by_cases h1 : name.toList.head? = some '/'
      · rw [if_pos h1] at h
        simp at h
      · rw [if_neg h1] at h
        rcases hr : resolveComps (pathComps name) [] with _ | l
        · rw [hr] at h
          simp at h
        · rw [hr] at h
          simp at h
          have hx := resolveComps_extend (pathComps name) [] dest.reverse
            (by rw [hr]; rfl)
          rw [List.nil_append, hr] at hx
          rw [hx]
          simp [← h]
  · induction entries with
    | nil =>
        intro e he
        simp at he
    | cons e2 rest ih =>
        intro e he hnone
        rcases hs : safeSuffix e2.name with _ | suffix
        · simp [extract_zip_model, hs]
        · rcases List.mem_cons.mp he with he1 | he1
          · rw [← he1, hnone] at hs
            exact Option.noConfusion hs
          · simp only [extract_zip_model, hs]
            exact ih e he1 hnone

/-- C8, witness: a parent-directory-traversal entry name is rejected by
the gate, resolves to no safe suffix, and extracting an archive holding
it fails with the wrapped error. -/
theorem c8_witness :
    safeSuffix "../evil.txt" = Option.none ∧
    enclosedSafe "../evil.txt" = false ∧
    (extract_zip_model ["libs"] [{ name := "../evil.txt", data := [1] }]).2 =
      some (.Unknown "Failed to get file name") ∧
    ((extract_zip_model ["libs"]
      [{ name := "../evil.txt", data := [1] }]).2).isSome = true := by
  refine ⟨by decide, by decide, by decide, ?_⟩
  exact (c8_zip_safety ["libs"] [{ name := "../evil.txt", data := [1] }]).2.2.2
    { name := "../evil.txt", data := [1] } (List.mem_singleton.mpr rfl) (by decide)

/-! ## Claim C10: the JSON "none" codec normalisation (src/utils/mod.rs) -/

/-- `json_none` (src/utils/mod.rs lines 66-76): after deserialising an
optional string, the literal value "none" is mapped to an absent value
and everything else passes through unchanged. -/
def json_none (s : Option String) : Option String :=
  match s with
  | some v => if v = "none" then Option.none else some v
  | Option.none => Option.none

/-- C10: an `acodec` or `vcodec` field holding the literal string "none"
deserialises to an absent codec id, so classification treats such a
format exactly as one whose codec field is missing: substituting the
mapped value for an absent one never changes `format_type`; with an
ordinary audio codec, a "none" video codec, no manifest URL and no
storyboard fragments the format classifies as AudioOnly, and with "none"
for both codecs it classifies as Unknown. -/
theorem c10_json_none (f : Format) (a : String) (ha : a ≠ "none") :
    json_none (some "none") = Option.none ∧
    json_none (some a) = some a ∧
    json_none Option.none = Option.none ∧
    ({ f with codec_info :=
        { f.codec_info with video_codec := json_none (some "none") } } :
          Format).format_type =
      ({ f with codec_info :=
          { f.codec_info with video_codec := Option.none } } :
            Format).format_type ∧
    (f.download_info.manifest_url = Option.none →
      f.storyboard_info.fragments = Option.none →
      ({ f with codec_info :=
          { f.codec_info with audio_codec := json_none (some a)
                              video_codec := json_none (some "none") } } :
            Format).format_type = .Audio ∧
      ({ f with codec_info :=
          { f.codec_info with audio_codec := json_none (some "none")
                              video_codec := json_none (some "none") } } :
            Format).format_type = .Unknown) := by
  have hnone : json_none (some "none") = Option.none := rfl
  have hpass : json_none (some a) = some a := by
    rw [json_none, if_neg ha]
  refine ⟨hnone, hpass, rfl, rfl, ?_⟩
  intro hm hs
  constructor
  · rw [Format.format_type]
    simp [hm, hs, hpass, hnone]
  · rw [Format.format_type]
    simp [hm, hs, hnone]

/-- C10, witness: on the concrete base format an "opus" audio codec with
a "none" video codec classifies as AudioOnly, and "none" for both codecs
classifies as Unknown. -/
theorem c10_witness :
    ({ baseFormat with codec_info :=
        { baseFormat.codec_info with audio_codec := json_none (some "opus")
                                     video_codec := json_none (some "none") } } :
          Format).format_type = .Audio ∧
    ({ baseFormat with codec_info :=
        { baseFormat.codec_info with audio_codec := json_none (some "none")
                                     video_codec := json_none (some "none") } } :
          Format).format_type = .Unknown :=
  (c10_json_none baseFormat "opus" (by decide)).2.2.2.2 rfl rfl
